import Mathlib

/-!
Verification development for the WSE grid synthesis pipeline
(`make_wse_grids.py`).  Each definition is a shallow embedding of the
corresponding function in the source; geometry and raster primitives of
the external engine (projection, convex hulls, TIN construction, raster
masking, mosaicking) are modelled at the level of the contracts stated
for them, with cells addressed by integer coordinates.
-/

/-- The recognized flood-frequency event classes.  Each corresponds to
one elevation field added by `copy_cross_sections` (source lines
176-178). -/
inductive Event
  | e50 | e20 | e10 | e04 | e02 | e01plus | e01min | e01pct | e0_2pct | e0_5pct
deriving DecidableEq

/-- The recognized textual synonyms for each event, exactly the string
pairs tested by the if-chain of `create_elev_values_table` (source
lines 231-250). -/
def synonyms : Event → List String
  | .e50 => ["50pct", "50 Percent Chance"]
  | .e20 => ["20pct", "20 Percent Chance"]
  | .e10 => ["10pct", "10 Percent Chance"]
  | .e04 => ["04pct", "4 Percent Chance"]
  | .e02 => ["02pct", "2 Percent Chance"]
  | .e01plus => ["01plus", "1 Percent Plus Chance"]
  | .e01min => ["01minus", "1 Percent Minus Chance"]
  | .e01pct => ["01pct", "1 Percent Chance"]
  | .e0_2pct => ["0_2pct", "0.2 Percent Chance"]
  | .e0_5pct => ["0_5pct", "0.5 Percent Chance"]

/-- The field name each event binds to, exactly the `add_fields` list of
`copy_cross_sections` (source lines 176-178). -/
def fieldName : Event → String
  | .e50 => "WSE_50pct"
  | .e20 => "WSE_20pct"
  | .e10 => "WSE_10pct"
  | .e04 => "WSE_04pct"
  | .e02 => "WSE_02pct"
  | .e01plus => "WSE_01plus"
  | .e01min => "WSE_01min"
  | .e01pct => "WSE_01pct"
  | .e0_2pct => "WSE_0_2pct"
  | .e0_5pct => "WSE_0_5pct"

/-- One row of the `L_XS_ELEV` table, with the fields read by the search
cursor of `create_elev_values_table` (source line 225). -/
structure ElevRecord where
  xs_ln_id : String
  event_typ : String
  wsel : Int
  eval_ln : String
deriving DecidableEq

/-- One cross-section line of `xs_elev.shp`: its line identifier and its
ten per-event elevation fields. -/
structure XSRow where
  xs_ln_id : String
  wse : Event → Int

/-- A freshly copied cross-section row: `copy_cross_sections` calculates
every event field to `-8888` (source lines 180-182). -/
def initXSRow (id : String) : XSRow :=
  { xs_ln_id := id, wse := fun _ => -8888 }

/-- The effect of the if-chain of `create_elev_values_table` (source
lines 231-250) on the in-memory update row: each of the ten ifs assigns
exactly the field of its own event when `event_typ` is one of that
event's two recognized strings, so the chain is a single per-event field
update. -/
def updateRowFields (row : XSRow) (rec : ElevRecord) : XSRow :=
  { row with wse := fun e => if rec.event_typ ∈ synonyms e then rec.wsel else row.wse e }

/-- The elevation records the per-row search cursor visits: those whose
`XS_LN_ID` equals the current row's identifier, by exact string equality
(source lines 219-221). -/
def matchingRecs (tbl : List ElevRecord) (id : String) : List ElevRecord :=
  tbl.filter (fun r => r.xs_ln_id = id)

/-- The inner search-cursor loop of `create_elev_values_table` (source
lines 228-256) for one cross-section row.  `row` is the in-memory update
row, `persisted` the stored state of that row (`none` once
`deleteRow` has run; a subsequent `updateRow` on a deleted cursor
position cannot resurrect the row).  Returns the stored row after the
loop, or `none` if the row was deleted. -/
def processRecs (row : XSRow) (persisted : Option XSRow) : List ElevRecord → Option XSRow
  | [] => persisted
  | rec :: rest =>
    let row' := updateRowFields row rec
    if rec.eval_ln = "T" then
      processRecs row' none rest
    else
      match persisted with
      | none => processRecs row' none rest
      | some _ => processRecs row' (some row') rest

/-- Processing of a single cross-section row by the update cursor of
`create_elev_values_table`: the search cursor visits the records whose
`XS_LN_ID` matches the row, and the loop of `processRecs` runs. -/
def processLine (row : XSRow) (tbl : List ElevRecord) : Option XSRow :=
  processRecs row (some row) (matchingRecs tbl row.xs_ln_id)

/-- `create_elev_values_table` (source lines 190-259): every row of the
stream's `xs_elev.shp` is visited by the update cursor and joined
against (or deleted because of) its matching `L_XS_ELEV` records. -/
def create_elev_values_table (xsRows : List XSRow) (tbl : List ElevRecord) : List XSRow :=
  xsRows.filterMap (fun row => processLine row tbl)

/-- Once the cursor row is deleted, the rest of the loop can never store
it again. -/
lemma processRecs_none (recs : List ElevRecord) :
    ∀ row : XSRow, processRecs row none recs = none := by
  induction recs with
  | nil => intro row; rfl
  | cons rec rest ih =>
    intro row
    by_cases h : rec.eval_ln = "T" <;> simp [processRecs, h, ih]

/-- If some matching record is flagged `"T"`, the loop deletes the row. -/
lemma processRecs_deleted (recs : List ElevRecord)
    (h : ∃ rec ∈ recs, rec.eval_ln = "T") :
    ∀ (row : XSRow) (p : Option XSRow), processRecs row p recs = none := by
  induction recs with
  | nil => simp at h
  | cons rec rest ih =>
    intro row p
    rcases h with ⟨r, hr, hT⟩
    rcases List.mem_cons.mp hr with rfl | hmem
    · simp [processRecs, hT, processRecs_none]
    · by_cases h0 : rec.eval_ln = "T"
      · simp [processRecs, h0, processRecs_none]
      · cases p with
        | none => simp [processRecs, h0, processRecs_none]
        | some q => simp [processRecs, h0]; exact ih ⟨r, hmem, hT⟩ _ _

/-- If no matching record is flagged `"T"`, the loop stores the row with
all field assignments of the visited records applied in order. -/
lemma processRecs_clean (recs : List ElevRecord)
    (h : ∀ rec ∈ recs, rec.eval_ln ≠ "T") :
    ∀ row : XSRow,
      processRecs row (some row) recs = some (recs.foldl updateRowFields row) := by
  induction recs with
  | nil => intro row; rfl
  | cons rec rest ih =>
    intro row
    have hT : rec.eval_ln ≠ "T" := h rec (List.mem_cons_self rec rest)
    simp only [processRecs, List.foldl_cons, if_neg hT]
    exact ih (fun r hr => h r (List.mem_cons_of_mem rec hr)) _

/-- The last record of the list whose event-type text is a synonym of
`e` (the record whose `WSEL` the update cursor leaves in `e`'s field). -/
def lastMatch (e : Event) : List ElevRecord → Option ElevRecord
  | [] => none
  | rec :: rest =>
    match lastMatch e rest with
    | some r => some r
    | none => if rec.event_typ ∈ synonyms e then some rec else none

lemma lastMatch_mem {e : Event} {recs : List ElevRecord} {r : ElevRecord}
    (h : lastMatch e recs = some r) : r ∈ recs ∧ r.event_typ ∈ synonyms e := by
  induction recs with
  | nil => simp [lastMatch] at h
  | cons rec rest ih =>
    simp only [lastMatch] at h
    cases h0 : lastMatch e rest with
    | some r' =>
      rw [h0] at h
      obtain rfl : r' = r := by simpa using h
      exact ⟨List.mem_cons_of_mem _ (ih h0).1, (ih h0).2⟩
    | none =>
      rw [h0] at h
      by_cases hm : rec.event_typ ∈ synonyms e
      · simp only [if_pos hm] at h
        obtain rfl : rec = r := by simpa using h
        exact ⟨List.mem_cons_self _ _, hm⟩
      · simp [if_neg hm] at h

lemma lastMatch_eq_none {e : Event} {recs : List ElevRecord} :
    lastMatch e recs = none ↔ ∀ r ∈ recs, r.event_typ ∉ synonyms e := by
  induction recs with
  | nil => simp [lastMatch]
  | cons rec rest ih =>
    constructor
    · intro h r hr
      simp only [lastMatch] at h
      cases h0 : lastMatch e rest with
      | some r' => rw [h0] at h; exact absurd h (by simp)
      | none =>
        rw [h0] at h
        rcases List.mem_cons.mp hr with rfl | hr'
        · by_cases hm : r.event_typ ∈ synonyms e
          · rw [if_pos hm] at h; exact absurd h (by simp)
          · exact hm
        · exact (ih.mp h0) r hr'
    · intro hall
      have h0 : lastMatch e rest = none :=
        ih.mpr (fun r hr => hall r (List.mem_cons_of_mem _ hr))
      simp [lastMatch, h0, hall rec (List.mem_cons_self _ _)]

/-- If `rec` is the unique record matching `e`, it is the last match. -/
lemma lastMatch_unique {e : Event} {recs : List ElevRecord} {rec : ElevRecord}
    (hmem : rec ∈ recs) (hm : rec.event_typ ∈ synonyms e)
    (huniq : ∀ r ∈ recs, r.event_typ ∈ synonyms e → r = rec) :
    lastMatch e recs = some rec := by
  cases h : lastMatch e recs with
  | none => exact absurd hm (lastMatch_eq_none.mp h rec hmem)
  | some r =>
    have hmm := lastMatch_mem h
    exact congrArg some (huniq r hmm.1 hmm.2)

/-- The field `e` of the row after all visited updates: the `WSEL` of
the last record matching `e`, or the original value if none matched. -/
lemma foldl_wse (e : Event) (recs : List ElevRecord) :
    ∀ row : XSRow,
      (recs.foldl updateRowFields row).wse e =
        match lastMatch e recs with
        | some r => r.wsel
        | none => row.wse e := by
  induction recs with
  | nil => intro row; rfl
  | cons rec rest ih =>
    intro row
    simp only [List.foldl_cons, lastMatch, ih]
    cases h0 : lastMatch e rest with
    | some r => rfl
    | none =>
      by_cases hm : rec.event_typ ∈ synonyms e <;>
        simp [updateRowFields, hm]

/-- `updateRowFields` never changes the line identifier. -/
lemma foldl_xs_ln_id (recs : List ElevRecord) :
    ∀ row : XSRow, (recs.foldl updateRowFields row).xs_ln_id = row.xs_ln_id := by
  induction recs with
  | nil => intro row; rfl
  | cons rec rest ih => intro row; simp [List.foldl_cons, ih, updateRowFields]

lemma mem_matchingRecs {tbl : List ElevRecord} {id : String} {r : ElevRecord} :
    r ∈ matchingRecs tbl id ↔ r ∈ tbl ∧ r.xs_ln_id = id := by
  simp [matchingRecs]

/-- Claim C1: for a cross-section line that survives the Elevation
Joiner (no matching record is flagged as an evaluation line), after
`create_elev_values_table` runs: (1) if a unique non-evaluation record
matches the line's identifier and event `E`'s synonyms, `E`'s field
equals that record's `WSEL`; (2) if no matching record has `E`'s
synonym, `E`'s field still holds the sentinel `-8888` it was initialized
to; (3) no event field of the surviving line is uninitialized — each is
the sentinel or the `WSEL` of some matching record. -/
theorem C1_elev_join_correct (tbl : List ElevRecord) (id : String) (e : Event)
    (hsurv : ∀ rec ∈ matchingRecs tbl id, rec.eval_ln ≠ "T") :
    (∀ rec ∈ matchingRecs tbl id, rec.event_typ ∈ synonyms e →
       (∀ r2 ∈ matchingRecs tbl id, r2.event_typ ∈ synonyms e → r2 = rec) →
       rec.eval_ln ≠ "T" →
       (create_elev_values_table [initXSRow id] tbl).map (fun r => r.wse e) = [rec.wsel])
    ∧ ((∀ rec ∈ matchingRecs tbl id, rec.event_typ ∉ synonyms e) →
       (create_elev_values_table [initXSRow id] tbl).map (fun r => r.wse e) = [-8888])
    ∧ (∀ e' : Event, ∃ v : Int,
       (create_elev_values_table [initXSRow id] tbl).map (fun r => r.wse e') = [v] ∧
       (v = -8888 ∨ ∃ rec ∈ matchingRecs tbl id,
          rec.event_typ ∈ synonyms e' ∧ v = rec.wsel)) := by
  have hid : (initXSRow id).xs_ln_id = id := rfl
  have hclean :
      processLine (initXSRow id) tbl =
        some ((matchingRecs tbl id).foldl updateRowFields (initXSRow id)) := by
    unfold processLine
    rw [hid]
    exact processRecs_clean _ hsurv _
  have hout :
      create_elev_values_table [initXSRow id] tbl =
        [(matchingRecs tbl id).foldl updateRowFields (initXSRow id)] := by
    simp [create_elev_values_table, hclean]
  refine ⟨?_, ?_, ?_⟩
  · intro rec hmem hm huniq _
    rw [hout]
    have hlm : lastMatch e (matchingRecs tbl id) = some rec :=
      lastMatch_unique hmem hm huniq
    simp [foldl_wse, hlm]
  · intro hno
    rw [hout]
    have hlm : lastMatch e (matchingRecs tbl id) = none :=
      lastMatch_eq_none.mpr hno
    simp [foldl_wse, hlm, initXSRow]
  · intro e'
    rw [hout]
    cases hlm : lastMatch e' (matchingRecs tbl id) with
    | none => exact ⟨-8888, by simp [foldl_wse, hlm, initXSRow], Or.inl rfl⟩
    | some r =>
      refine ⟨r.wsel, by simp [foldl_wse, hlm], Or.inr ⟨r, (lastMatch_mem hlm).1,
        (lastMatch_mem hlm).2, rfl⟩⟩

/-- Witness for C1: a table with a unique `01pct` record for line `X1`
yields an output row whose `WSE_01pct` field is that record's `WSEL`
and whose `WSE_50pct` field is the sentinel. -/
theorem C1_witness :
    (create_elev_values_table [initXSRow "X1"]
        [⟨"X1", "01pct", 105, "F"⟩, ⟨"X2", "50pct", 99, "F"⟩]).map
      (fun r => r.wse Event.e01pct) = [105] := by
  exact (C1_elev_join_correct
    [⟨"X1", "01pct", 105, "F"⟩, ⟨"X2", "50pct", 99, "F"⟩] "X1" Event.e01pct
    (by decide)).1 ⟨"X1", "01pct", 105, "F"⟩ (by decide) (by decide) (by decide) (by decide)

/-- Claim C2: if any record matching a line identifier carries the
evaluation-line flag `"T"`, no row with that identifier survives
`create_elev_values_table`, whatever other valid event matches exist and
in whatever order the table lists the matching records (the statement
quantifies over every table, hence every encounter order). -/
theorem C2_eval_line_drop (xsRows : List XSRow) (tbl : List ElevRecord) (id : String)
    (h : ∃ rec ∈ matchingRecs tbl id, rec.eval_ln = "T") :
    (create_elev_values_table xsRows tbl).filter (fun row => row.xs_ln_id = id) = [] := by
  rw [List.filter_eq_nil_iff]
  intro row' hrow'
  simp only [create_elev_values_table, List.mem_filterMap] at hrow'
  obtain ⟨row, _, hproc⟩ := hrow'
  by_cases hid : row.xs_ln_id = id
  · exfalso
    unfold processLine at hproc
    rw [hid, processRecs_deleted _ h] at hproc
    exact Option.noConfusion hproc
  · by_cases hT : ∃ rec ∈ matchingRecs tbl row.xs_ln_id, rec.eval_ln = "T"
    · exfalso
      unfold processLine at hproc
      rw [processRecs_deleted _ hT] at hproc
      exact Option.noConfusion hproc
    · push_neg at hT
      unfold processLine at hproc
      rw [processRecs_clean _ hT] at hproc
      obtain rfl : _ = row' := Option.some.inj hproc
      simp [foldl_xs_ln_id, hid]

/-- Witness for C2: line `X1` has one evaluation-flagged record and one
record with a valid elevation; no row with identifier `X1` survives. -/
theorem C2_witness :
    (create_elev_values_table [initXSRow "X1"]
        [⟨"X1", "50pct", 99, "F"⟩, ⟨"X1", "01pct", 105, "T"⟩]).filter
      (fun row => row.xs_ln_id = "X1") = [] := by
  exact C2_eval_line_drop [initXSRow "X1"]
    [⟨"X1", "50pct", 99, "F"⟩, ⟨"X1", "01pct", 105, "T"⟩] "X1"
    ⟨⟨"X1", "01pct", 105, "T"⟩, by decide, rfl⟩

/-! ### Raster and polygon model

Rasters are grids of optional values on integer cell coordinates
(`none` is the raster no-data encoding, distinct from the vector
sentinels); a polygon is modelled by the set of cells it covers.  These
are the contracts of the external engine's `maskExtract`, `setNull` and
`mosaic` primitives, cell by cell. -/

abbrev Cell := Int × Int

abbrev Raster := Cell → Option Int

abbrev Polygon := Cell → Bool

/-- `arcpy.sa.ExtractByMask(raster, mask, "INSIDE")`: keeps a cell's
value inside the mask and emits no-data outside it. -/
def extractByMask (r : Raster) (mask : Polygon) : Raster :=
  fun c => if mask c then r c else none

/-- The on-disk artifacts of one stream folder for one event, as the
per-event stages read and write them: `<event>.tin`, `<event>_full.tif`,
`<event>.tif`, plus the informational messages recorded so far. -/
structure EvState where
  tin : Option (List XSRow)
  full_tif : Option Raster
  event_tif : Option Raster
  msgs : List String

/-- The skip message recorded by `make_tin`, `create_full_with_raster`,
`clip_raster`, `extract_raster_from_dem` and `mosaic_wse_grid` when an
input is missing (leading whitespace of the source messages elided). -/
def noWseMsg (event : String) : String :=
  "There are no WSE values for " ++ event ++ "."

/-- The cross-sections the `make_tin` layer query keeps: event field
NOT IN (-9999, -8888) (source lines 116-117). -/
def qualifying (rows : List XSRow) (e : Event) : List XSRow :=
  rows.filter (fun r => r.wse e ≠ -9999 ∧ r.wse e ≠ -8888)

/-- `make_tin` (source lines 96-137): if more than one cross-section
qualifies, a TIN is built from them (modelled by the qualifying set the
engine triangulates); else only the skip message is recorded.  There is
no existence check on the TIN, and on the skip path a pre-existing TIN
is left in place. -/
def make_tin (rows : List XSRow) (e : Event) (st : EvState) : EvState :=
  let q := qualifying rows e
  if 1 < q.length then { st with tin := some q }
  else { st with msgs := st.msgs ++ [noWseMsg (fieldName e)] }

/-- `create_full_with_raster` (source lines 340-385): skip if the full
raster exists; skip with a message if the TIN is missing; otherwise
rasterize the TIN and extract it by the stream's clipper boundary.  The
`finally` block always deletes the TIN. -/
def create_full_with_raster (rasterize : List XSRow → Raster) (clipper : Polygon)
    (event : String) (st : EvState) : EvState :=
  let st' :=
    if st.full_tif.isSome then
      { st with msgs := st.msgs ++ ["Raster for " ++ event ++ " already exists."] }
    else
      match st.tin with
      | none => { st with msgs := st.msgs ++ [noWseMsg event] }
      | some t => { st with full_tif := some (extractByMask (rasterize t) clipper) }
  { st' with tin := none }

/-- The events `clip_raster` sends to the 0.2%-annual-chance extent
(source line 415); every other event uses the 1%-annual-chance extent. -/
def clipSpecialEvents : List String :=
  ["WSE_01plus", "WSE_01min", "WSE_0_2pct", "WSE_0_5pct"]

/-- `clip_raster` (source lines 388-430): skip if the clipped raster
exists; skip with a message if the full raster is missing; otherwise
extract the full raster by the selected flooding extent
(`flooding_0_2pct.shp` for the events of `clipSpecialEvents`,
`flooding_1pct.shp` otherwise) and delete the full raster. -/
def clip_raster (event : String) (p1 p02 : Polygon) (st : EvState) : EvState :=
  if st.event_tif.isSome then
    { st with msgs := st.msgs ++ ["The clipped raster for " ++ event ++ " already exists."] }
  else
    match st.full_tif with
    | none => { st with msgs := st.msgs ++ [noWseMsg event] }
    | some full =>
      let flooding := if event ∈ clipSpecialEvents then p02 else p1
      { st with event_tif := some (extractByMask full flooding), full_tif := none }

/-- `SetNull(temp < dem, temp)` (source lines 459-461): a cell holding a
value below the co-located terrain elevation becomes no-data, every
other cell keeps its value; no-data cells stay no-data.  The terrain
model is total over the grid. -/
def setNullBelow (r : Raster) (dem : Cell → Int) : Raster :=
  fun c =>
    match r c with
    | none => none
    | some v => if v < dem c then none else some v

/-- `extract_raster_from_dem` (source lines 433-466): skip with a
message if the clipped raster is missing; otherwise rename it aside,
null every cell below the DEM and save the result in its place. -/
def extract_raster_from_dem (dem : Cell → Int) (event : String) (st : EvState) : EvState :=
  match st.event_tif with
  | none => { st with msgs := st.msgs ++ [noWseMsg event] }
  | some r => { st with event_tif := some (setNullBelow r dem) }

/-- The events `main` excludes from terrain-floor enforcement
(source line 584). -/
def floorExemptEvents : List String := ["WSE_01pct", "WSE_0_2pct"]

/-- The terrain-floor step of `main`'s event loop (source lines
584-588): `extract_raster_from_dem` runs only for events outside
`floorExemptEvents`. -/
def floor_stage (event : String) (dem : Cell → Int) (st : EvState) : EvState :=
  if event ∉ floorExemptEvents then extract_raster_from_dem dem event st else st

/-- The per-stream, per-event stage sequence of `main`'s event loop
(source lines 570-582): TIN, full raster, flood-extent clip. -/
def event_stage_pipeline (rows : List XSRow) (e : Event) (rasterize : List XSRow → Raster)
    (clipper p1 p02 : Polygon) (st : EvState) : EvState :=
  clip_raster (fieldName e) p1 p02
    (create_full_with_raster rasterize clipper (fieldName e)
      (make_tin rows e st))

/-- Claim C4: `clip_raster` selects exactly one regulatory extent — the
0.2%-annual-chance polygon for `WSE_01plus`, `WSE_01min`, `WSE_0_2pct`
and `WSE_0_5pct`, the 1%-annual-chance polygon for every other event —
and the clipped raster it produces holds no data cell outside the
selected polygon. -/
theorem C4_clip_extent_selection (event : String) (p1 p02 : Polygon) (st : EvState)
    (full : Raster) (h1 : st.event_tif = none) (h2 : st.full_tif = some full) :
    (event ∈ clipSpecialEvents →
       (clip_raster event p1 p02 st).event_tif = some (extractByMask full p02) ∧
       ∀ c, p02 c = false → extractByMask full p02 c = none)
    ∧ (event ∉ clipSpecialEvents →
       (clip_raster event p1 p02 st).event_tif = some (extractByMask full p1) ∧
       ∀ c, p1 c = false → extractByMask full p1 c = none) := by
  constructor
  · intro hev
    constructor
    · simp [clip_raster, h1, h2, hev]
    · intro c hc; simp [extractByMask, hc]
  · intro hev
    constructor
    · simp [clip_raster, h1, h2, hev]
    · intro c hc; simp [extractByMask, hc]

/-- A concrete raster used by the witnesses: a single cell of value
`105` at the origin. -/
def rasterA : Raster := fun c => if c = (0, 0) then some 105 else none

/-- A second concrete raster: value `107` at the origin and `90` at
`(1, 0)`. -/
def rasterB : Raster := fun c =>
  if c = (0, 0) then some 107 else if c = (1, 0) then some 90 else none

/-- A concrete extent polygon covering only the nonnegative x-axis
half-plane. -/
def polyHalf : Polygon := fun c => decide (0 ≤ c.1)

/-- Witness for C4: clipping a `WSE_01pct` full raster uses the
1%-annual-chance extent, and an uncovered cell of the result is
no-data. -/
theorem C4_witness :
    (clip_raster "WSE_01pct" polyHalf (fun _ => false)
        ⟨none, some rasterA, none, []⟩).event_tif = some (extractByMask rasterA polyHalf) ∧
    extractByMask rasterA polyHalf (-1, 0) = none := by
  have h := (C4_clip_extent_selection "WSE_01pct" polyHalf (fun _ => false)
    ⟨none, some rasterA, none, []⟩ rasterA rfl rfl).2 (by decide)
  exact ⟨h.1, h.2 (-1, 0) (by decide)⟩

/-- Claim C5: for an event outside the two exempt base events, the
terrain-floor stage nulls exactly the cells whose value is strictly
below the terrain and keeps every other cell unchanged; for `WSE_01pct`
and `WSE_0_2pct` the stage is not applied at all and the state is
untouched. -/
theorem C5_terrain_floor :
    (∀ (event : String) (dem : Cell → Int) (st : EvState) (r : Raster),
       event ∉ floorExemptEvents → st.event_tif = some r →
       ∃ r', (floor_stage event dem st).event_tif = some r' ∧
         (∀ c v, r c = some v → r' c = if v < dem c then none else some v) ∧
         (∀ c, r c = none → r' c = none))
    ∧ (∀ (dem : Cell → Int) (st : EvState),
       floor_stage "WSE_01pct" dem st = st ∧ floor_stage "WSE_0_2pct" dem st = st) := by
  constructor
  · intro event dem st r hev hr
    refine ⟨setNullBelow r dem, ?_, ?_, ?_⟩
    · simp [floor_stage, hev, extract_raster_from_dem, hr]
    · intro c v hc; simp [setNullBelow, hc]
    · intro c hc; simp [setNullBelow, hc]
  · intro dem st
    constructor <;> simp [floor_stage, floorExemptEvents]

/-- Witness for C5: the floor stage on a concrete `WSE_50pct` raster
keeps the origin cell (value `105`, terrain `100`) and nulls nothing
above terrain; and the stage is the identity on `WSE_01pct`. -/
theorem C5_witness :
    (∃ r', (floor_stage "WSE_50pct" (fun _ => 100)
        ⟨none, none, some rasterA, []⟩).event_tif = some r' ∧
       (∀ c v, rasterA c = some v → r' c = if v < 100 then none else some v) ∧
       (∀ c, rasterA c = none → r' c = none))
    ∧ floor_stage "WSE_01pct" (fun _ => 100) ⟨none, none, some rasterA, []⟩ =
        ⟨none, none, some rasterA, []⟩ := by
  exact ⟨C5_terrain_floor.1 "WSE_50pct" (fun _ => 100)
      ⟨none, none, some rasterA, []⟩ rasterA (by decide) rfl,
    (C5_terrain_floor.2 (fun _ => 100) ⟨none, none, some rasterA, []⟩).1⟩

/-- Claim C7: for a stream and event with fewer than two cross-sections
whose elevation field is outside the sentinel set, the event loop
produces no TIN, no full-extent raster and no clipped raster; its only
recorded side effects are the informational skip messages, and it
returns normally. -/
theorem C7_insufficient_xs_skip (rows : List XSRow) (e : Event)
    (rasterize : List XSRow → Raster) (clipper p1 p02 : Polygon) (st : EvState)
    (hq : (qualifying rows e).length < 2)
    (h1 : st.tin = none) (h2 : st.full_tif = none) (h3 : st.event_tif = none) :
    (event_stage_pipeline rows e rasterize clipper p1 p02 st).tin = none ∧
    (event_stage_pipeline rows e rasterize clipper p1 p02 st).full_tif = none ∧
    (event_stage_pipeline rows e rasterize clipper p1 p02 st).event_tif = none ∧
    (event_stage_pipeline rows e rasterize clipper p1 p02 st).msgs =
      st.msgs ++ [noWseMsg (fieldName e), noWseMsg (fieldName e), noWseMsg (fieldName e)] := by
  have hq' : ¬ 1 < (qualifying rows e).length := by omega
  simp [event_stage_pipeline, make_tin, hq', create_full_with_raster, h1, h2, h3,
    clip_raster]

/-- Witness for C7: one freshly initialized cross-section (all fields at
the sentinel) qualifies zero lines for `WSE_01pct`; the event loop
records three skip messages and produces no artifact. -/
theorem C7_witness :
    (event_stage_pipeline [initXSRow "X1"] Event.e01pct (fun _ => rasterA)
        polyHalf polyHalf polyHalf ⟨none, none, none, []⟩).event_tif = none ∧
    (event_stage_pipeline [initXSRow "X1"] Event.e01pct (fun _ => rasterA)
        polyHalf polyHalf polyHalf ⟨none, none, none, []⟩).msgs =
      [noWseMsg "WSE_01pct", noWseMsg "WSE_01pct", noWseMsg "WSE_01pct"] := by
  have h := C7_insufficient_xs_skip [initXSRow "X1"] Event.e01pct (fun _ => rasterA)
    polyHalf polyHalf polyHalf ⟨none, none, none, []⟩ (by decide) rfl rfl rfl
  exact ⟨h.2.2.1, by simpa using h.2.2.2⟩

/-! ### Event Mosaicker -/

/-- Cellwise combination used by `Mosaic(..., mosaic_type=MAXIMUM)`:
the greater of two optional cell values, data winning over no-data. -/
def optMax : Option Int → Option Int → Option Int
  | none, o => o
  | some a, none => some a
  | some a, some b => some (max a b)

/-- The composite the mosaicker builds (source lines 501-507): the first
input is copied to the target and all inputs are then mosaicked into it
with `MAXIMUM`, so every cell is the maximum over the inputs holding
data there, and no-data where none does. -/
def mosaicAll (rs : List Raster) : Raster :=
  fun c => (rs.map (fun r => r c)).foldl optMax none

/-- The workspace-root state seen by `mosaic_wse_grid` for one event:
the composite `<event>.tif` at the root, and the per-stream TIF files
whose names contain the event (those `arcpy.da.Walk` finds once the
root composite is gone). -/
structure WsState where
  composite : Option Raster
  perStream : List Raster
  msgs : List String

/-- `mosaic_wse_grid` (source lines 469-507): the pre-existing root
composite is deleted first (lines 482-484); discovery then walks the
workspace and finds exactly the per-stream rasters matching the event
(the just-deleted composite would have matched, which is why deletion
precedes discovery); if none is found only a message is recorded, else
the inputs are mosaicked with `MAXIMUM` into a new composite. -/
def mosaic_wse_grid (event : String) (st : WsState) : WsState :=
  let st1 := if st.composite.isSome then { st with composite := none } else st
  if st1.perStream.isEmpty then
    { st1 with msgs := st1.msgs ++ [noWseMsg event] }
  else
    { st1 with composite := some (mosaicAll st1.perStream) }

lemma optMax_eq_none {a b : Option Int} : optMax a b = none ↔ a = none ∧ b = none := by
  cases a <;> cases b <;> simp [optMax]

/-- If the running maximum is `some v`, `v` came from the accumulator or
one of the two operands. -/
lemma optMax_attained {a b : Option Int} {v : Int} (h : optMax a b = some v) :
    a = some v ∨ b = some v := by
  cases a with
  | none => exact Or.inr (by simpa [optMax] using h)
  | some x =>
    cases b with
    | none => exact Or.inl (by simpa [optMax] using h)
    | some y =>
      have hv : max x y = v := by simpa [optMax] using h
      rcases max_choice x y with hc | hc
      · exact Or.inl (by rw [← hv, hc])
      · exact Or.inr (by rw [← hv, hc])

/-- The fold of `optMax` is `none` exactly when the accumulator and all
elements are `none`. -/
lemma foldl_optMax_none (l : List (Option Int)) :
    ∀ acc, List.foldl optMax acc l = none ↔ acc = none ∧ ∀ o ∈ l, o = none := by
  induction l with
  | nil => intro acc; simp
  | cons o t ih =>
    intro acc
    rw [List.foldl_cons, ih (optMax acc o), optMax_eq_none]
    simp only [List.mem_cons]
    constructor
    · rintro ⟨⟨ha, ho⟩, hall⟩
      refine ⟨ha, fun x hx => ?_⟩
      rcases hx with rfl | hx
      · exact ho
      · exact hall x hx
    · rintro ⟨ha, hall⟩
      exact ⟨⟨ha, hall o (Or.inl rfl)⟩, fun x hx => hall x (Or.inr hx)⟩

/-- If the fold of `optMax` yields `some v`, then `v` is held by the
accumulator or an element, and it bounds them all. -/
lemma foldl_optMax_some (l : List (Option Int)) :
    ∀ acc v, List.foldl optMax acc l = some v →
      (acc = some v ∨ some v ∈ l) ∧
      (∀ w, acc = some w → w ≤ v) ∧ (∀ w, some w ∈ l → w ≤ v) := by
  induction l with
  | nil =>
    intro acc v h
    simp only [List.foldl_nil] at h
    refine ⟨Or.inl h, fun w hw => ?_, fun w hw => by simp at hw⟩
    rw [hw] at h
    exact le_of_eq (Option.some.inj h)
  | cons o t ih =>
    intro acc v h
    rw [List.foldl_cons] at h
    obtain ⟨h1, h2, h3⟩ := ih (optMax acc o) v h
    refine ⟨?_, ?_, ?_⟩
    · rcases h1 with h1 | h1
      · rcases optMax_attained h1 with ha | ho
        · exact Or.inl ha
        · exact Or.inr (List.mem_cons.mpr (Or.inl ho.symm))
      · exact Or.inr (List.mem_cons_of_mem _ h1)
    · intro w hw
      rw [hw] at h2
      cases o with
      | none => exact h2 w rfl
      | some b => exact le_trans (le_max_left w b) (h2 (max w b) rfl)
    · intro w hw
      rcases List.mem_cons.mp hw with hw | hw
      · rw [← hw] at h2
        cases acc with
        | none => exact h2 w rfl
        | some a => exact le_trans (le_max_right a w) (h2 (max a w) rfl)
      · exact h3 w hw

/-- Claim C6: with at least one discovered per-stream raster, the Event
Mosaicker produces a composite whose every cell is the maximum of the
values the contributing inputs hold there (no-data where every input is
no-data); with no discovered raster it only records an informational
message and returns. -/
theorem C6_mosaic_max (event : String) (st : WsState) :
    (st.perStream ≠ [] →
       ∃ m : Raster, (mosaic_wse_grid event st).composite = some m ∧
         ∀ c : Cell,
           (m c = none ↔ ∀ r ∈ st.perStream, r c = none) ∧
           (∀ v : Int, m c = some v →
              (∃ r ∈ st.perStream, r c = some v) ∧
              ∀ r ∈ st.perStream, ∀ w : Int, r c = some w → w ≤ v))
    ∧ (st.perStream = [] →
       (mosaic_wse_grid event st).composite = none ∧
       (mosaic_wse_grid event st).msgs = st.msgs ++ [noWseMsg event]) := by
  constructor
  · intro hne
    refine ⟨mosaicAll st.perStream, ?_, ?_⟩
    · by_cases hc : st.composite.isSome <;>
        simp [mosaic_wse_grid, hc, List.isEmpty_iff, hne]
    · intro c
      constructor
      · rw [show mosaicAll st.perStream c =
            List.foldl optMax none (st.perStream.map (fun r => r c)) from rfl,
          foldl_optMax_none]
        simp
      · intro v hv
        have hv2 : List.foldl optMax none (st.perStream.map (fun r => r c)) = some v := hv
        have h := foldl_optMax_some (st.perStream.map (fun r => r c)) none v hv2
        refine ⟨?_, ?_⟩
        · rcases h.1 with h1 | h1
          · exact absurd h1 (by simp)
          · obtain ⟨r, hr, hrc⟩ := List.mem_map.mp h1
            exact ⟨r, hr, hrc⟩
        · intro r hr w hw
          exact h.2.2 w (List.mem_map.mpr ⟨r, hr, hw⟩)
  · intro he
    cases hcc : st.composite with
    | none => simp [mosaic_wse_grid, hcc, he]
    | some r0 => simp [mosaic_wse_grid, hcc, he]

/-- Witness for C6: two overlapping single-stream rasters, values `105`
and `107` at the origin, mosaic to a composite; the theorem yields its
maximum-compositing characterization at every cell. -/
theorem C6_witness :
    ∃ m : Raster,
      (mosaic_wse_grid "WSE_01pct" ⟨none, [rasterA, rasterB], []⟩).composite = some m ∧
      ∀ c : Cell,
        (m c = none ↔ ∀ r ∈ [rasterA, rasterB], r c = none) ∧
        (∀ v : Int, m c = some v →
           (∃ r ∈ [rasterA, rasterB], r c = some v) ∧
           ∀ r ∈ [rasterA, rasterB], ∀ w : Int, r c = some w → w ≤ v) := by
  exact (C6_mosaic_max "WSE_01pct" ⟨none, [rasterA, rasterB], []⟩).1 (by simp)

/-- Claim C10: `mosaic_wse_grid` deletes any pre-existing composite for
the event before discovering inputs; if no per-stream raster matches,
the old composite is gone and nothing replaces it — the workspace holds
no composite for the event afterwards, whatever it held before. -/
theorem C10_mosaic_delete_first (event : String) (st : WsState)
    (h : st.perStream = []) :
    (mosaic_wse_grid event st).composite = none ∧
    (mosaic_wse_grid event st).msgs = st.msgs ++ [noWseMsg event] := by
  cases hcc : st.composite with
  | none => simp [mosaic_wse_grid, hcc, h]
  | some r0 => simp [mosaic_wse_grid, hcc, h]

/-- Witness for C10: a workspace holding a composite but no per-stream
raster comes out of the mosaicker with the composite deleted. -/
theorem C10_witness :
    (mosaic_wse_grid "WSE_01pct" ⟨some rasterA, [], []⟩).composite = none ∧
    (mosaic_wse_grid "WSE_01pct" ⟨some rasterA, [], []⟩).msgs = [noWseMsg "WSE_01pct"] := by
  have h := C10_mosaic_delete_first "WSE_01pct" ⟨some rasterA, [], []⟩ rfl
  exact ⟨h.1, by simpa using h.2⟩

/-- A workspace with a pre-existing composite and no per-stream raster,
for the refutation of claim C3. -/
def c3State : WsState := { composite := some rasterA, perStream := [], msgs := [] }

/-- Claim C3 is false as stated: it asserts that every stage, including
the Event Mosaicker, leaves a pre-existing target artifact unchanged and
performs no recomputation, but `mosaic_wse_grid` deletes the existing
composite (source lines 482-484): invoked on a workspace whose composite
exists, it does not leave it unchanged. -/
theorem C3_counterexample :
    c3State.composite.isSome = true ∧
    (mosaic_wse_grid "WSE_01pct" c3State).composite ≠ c3State.composite := by
  refine ⟨rfl, ?_⟩
  simp [mosaic_wse_grid, c3State]

/-- Claim C3 amended: the per-stream raster stages with existence checks
(`create_full_with_raster`, `clip_raster` — likewise the cross-section
copy, stream clipper and flooding clippers) short-circuit when their
target output exists, leaving that artifact unchanged; the TIN builder
recomputes its transient TIN unconditionally, and the Event Mosaicker,
instead of short-circuiting, deletes any pre-existing composite and
rebuilds it from the discovered inputs. -/
theorem C3_amended_short_circuit (rasterize : List XSRow → Raster)
    (clipper p1 p02 : Polygon) (event : String) (st : EvState) (r : Raster) :
    (st.full_tif = some r →
       (create_full_with_raster rasterize clipper event st).full_tif = some r) ∧
    (st.event_tif = some r →
       clip_raster event p1 p02 st =
         { st with msgs :=
             st.msgs ++ ["The clipped raster for " ++ event ++ " already exists."] }) := by
  constructor
  · intro h; simp [create_full_with_raster, h]
  · intro h; simp [clip_raster, h]

/-- Witness for the amended C3: concrete states whose full and clipped
rasters already exist pass through their stages with the artifact
untouched. -/
theorem C3_witness :
    (create_full_with_raster (fun _ => rasterA) polyHalf "WSE_01pct"
        ⟨none, some rasterA, some rasterB, []⟩).full_tif = some rasterA ∧
    clip_raster "WSE_01pct" polyHalf polyHalf ⟨none, some rasterA, some rasterB, []⟩ =
      ⟨none, some rasterA, some rasterB,
        ["The clipped raster for WSE_01pct already exists."]⟩ := by
  refine ⟨(C3_amended_short_circuit (fun _ => rasterA) polyHalf polyHalf polyHalf
      "WSE_01pct" ⟨none, some rasterA, some rasterB, []⟩ rasterA).1 rfl, ?_⟩
  have h := (C3_amended_short_circuit (fun _ => rasterA) polyHalf polyHalf polyHalf
      "WSE_01pct" ⟨none, some rasterA, some rasterB, []⟩ rasterB).2 rfl
  simpa using h

/-! ### Stream Boundary (Clipper) Builder -/

/-- The station-collection loop of `create_stream_clippers` (source
lines 71-76): each `STREAM_STN` value read by the cursor is appended
unless already present. -/
def collectStations (rows : List Int) : List Int :=
  rows.foldl (fun acc x => if x ∈ acc then acc else acc ++ [x]) []

/-- The station list the builder iterates over: the collected distinct
stations, sorted ascending (source line 78, Python `sorted`). -/
def stationList (rows : List Int) : List Int :=
  List.insertionSort (· ≤ ·) (collectStations rows)

/-- The adjacent station pairs the loop of source lines 82-86 sends to
`create_polygon`: indices `(i, i+1)` of the sorted station list. -/
def adjPairs (l : List Int) : List (Int × Int) := l.zip l.tail

/-- `arcpy.management.Dissolve` on the accumulated hull features: the
union of the polygons, a single (possibly empty) output polygon. -/
def dissolve (ps : List Polygon) : Polygon :=
  fun c => ps.any (fun p => p c)

/-- The boundary `create_stream_clippers` writes to `clipper.shp`
(source lines 59-93), with `hull s1 s2` the convex hull
`create_polygon` builds over the cross-section lines at stations `s1`
and `s2`: the dissolve of the hulls of every adjacent station pair. -/
def create_stream_clippers_boundary (hull : Int → Int → Polygon) (rows : List Int) : Polygon :=
  dissolve ((adjPairs (stationList rows)).map (fun pr => hull pr.1 pr.2))

lemma collectStations_loop_nodup (rows : List Int) :
    ∀ acc : List Int, acc.Nodup →
      (rows.foldl (fun acc x => if x ∈ acc then acc else acc ++ [x]) acc).Nodup := by
  induction rows with
  | nil => intro acc h; simpa using h
  | cons x t ih =>
    intro acc h
    rw [List.foldl_cons]
    by_cases hx : x ∈ acc
    · rw [if_pos hx]; exact ih acc h
    · rw [if_neg hx]
      exact ih (acc ++ [x]) (by simp [List.nodup_append, h, hx])

lemma mem_collectStations_loop (rows : List Int) :
    ∀ (acc : List Int) (y : Int),
      y ∈ rows.foldl (fun acc x => if x ∈ acc then acc else acc ++ [x]) acc ↔
        y ∈ acc ∨ y ∈ rows := by
  induction rows with
  | nil => intro acc y; simp
  | cons x t ih =>
    intro acc y
    rw [List.foldl_cons]
    by_cases hx : x ∈ acc
    · rw [if_pos hx, ih acc y]
      constructor
      · rintro (h | h)
        · exact Or.inl h
        · exact Or.inr (List.mem_cons_of_mem _ h)
      · rintro (h | h)
        · exact Or.inl h
        · rcases List.mem_cons.mp h with rfl | h
          · exact Or.inl hx
          · exact Or.inr h
    · rw [if_neg hx, ih (acc ++ [x]) y]
      simp only [List.mem_append, List.mem_singleton, List.mem_cons]
      tauto

lemma collectStations_nodup (rows : List Int) : (collectStations rows).Nodup :=
  collectStations_loop_nodup rows [] List.nodup_nil

lemma mem_collectStations {rows : List Int} {y : Int} :
    y ∈ collectStations rows ↔ y ∈ rows := by
  rw [collectStations, mem_collectStations_loop rows [] y]
  simp

lemma stationList_perm (rows : List Int) :
    (stationList rows).Perm (collectStations rows) :=
  List.perm_insertionSort (· ≤ ·) (collectStations rows)

/-- Claim C8: the boundary builder forms the sorted list of the distinct
station values (sorted ascending, free of duplicates, containing exactly
the stations of the input rows), convex-hulls every adjacent pair,
accumulates the hulls and dissolves them into the single output
boundary; with fewer than two distinct stations there is no adjacent
pair, so the dissolved boundary is empty, and the builder still returns
normally. -/
theorem C8_boundary_algorithm (hull : Int → Int → Polygon) (rows : List Int) :
    (stationList rows).Sorted (· ≤ ·) ∧
    (stationList rows).Nodup ∧
    (∀ x : Int, x ∈ stationList rows ↔ x ∈ rows) ∧
    create_stream_clippers_boundary hull rows =
      dissolve ((adjPairs (stationList rows)).map (fun pr => hull pr.1 pr.2)) ∧
    ((stationList rows).length < 2 →
      ∀ c : Cell, create_stream_clippers_boundary hull rows c = false) := by
  refine ⟨List.sorted_insertionSort _ _, ?_, ?_, rfl, ?_⟩
  · exact (stationList_perm rows).nodup_iff.mpr (collectStations_nodup rows)
  · intro x
    rw [(stationList_perm rows).mem_iff, mem_collectStations]
  · intro hlen c
    unfold create_stream_clippers_boundary adjPairs
    cases hsl : stationList rows with
    | nil => simp [dissolve]
    | cons a t =>
      cases t with
      | nil => simp [dissolve]
      | cons b t' =>
        exact absurd hlen (by rw [hsl]; simp)

/-- A concrete hull operation for the witnesses: the axis-aligned band
between the two stations. -/
def hullBand : Int → Int → Polygon := fun s1 s2 => fun c => decide (s1 ≤ c.1 ∧ c.1 ≤ s2)

/-- Witness for C8: a stream whose rows carry a single distinct station
(`7`, twice) yields a sorted duplicate-free station list and an empty
boundary. -/
theorem C8_witness :
    (stationList [7, 7]).Sorted (· ≤ ·) ∧
    (stationList [7, 7]).Nodup ∧
    ((7 : Int) ∈ stationList [7, 7] ↔ (7 : Int) ∈ [(7 : Int), 7]) ∧
    create_stream_clippers_boundary hullBand [7, 7] (0, 0) = false := by
  have h := C8_boundary_algorithm hullBand [7, 7]
  exact ⟨h.1, h.2.1, h.2.2.1 7, h.2.2.2.2 (by decide) (0, 0)⟩

/-- The stream-folder state `create_stream_clippers` works on: the
boundary `clipper.shp` if present, the stations of `xs_elev.shp`, and
the messages recorded so far. -/
structure ClipperState where
  clipper : Option Polygon
  stations : List Int
  msgs : List String

/-- `create_stream_clippers` as a workspace transformer (source lines
44-93): if `clipper.shp` exists the builder records a message and
returns at once (source lines 59-61); otherwise it builds the boundary
from the stream's stations and writes it. -/
def create_stream_clippers_run (hull : Int → Int → Polygon) (st : ClipperState) : ClipperState :=
  if st.clipper.isSome then
    { st with msgs := st.msgs ++ ["Clipper.shp already exists."] }
  else
    { st with clipper := some (create_stream_clippers_boundary hull st.stations) }

/-- Claim C9: when the boundary output already exists the builder leaves
the boundary and the rest of the stream workspace unchanged (only a
message is recorded), and two consecutive runs leave the workspace in
the same state as one run. -/
theorem C9_clipper_idempotent (hull : Int → Int → Polygon) (st : ClipperState) :
    (st.clipper.isSome = true →
       (create_stream_clippers_run hull st).clipper = st.clipper ∧
       (create_stream_clippers_run hull st).stations = st.stations) ∧
    ((create_stream_clippers_run hull (create_stream_clippers_run hull st)).clipper =
       (create_stream_clippers_run hull st).clipper ∧
     (create_stream_clippers_run hull (create_stream_clippers_run hull st)).stations =
       (create_stream_clippers_run hull st).stations) := by
  constructor
  · intro h
    simp [create_stream_clippers_run, h]
  · cases hcc : st.clipper with
    | none => simp [create_stream_clippers_run, hcc]
    | some p => simp [create_stream_clippers_run, hcc]

/-- Witness for C9: a stream whose `clipper.shp` already holds a
boundary passes through the builder with boundary and stations
untouched, and a second run equals the first. -/
theorem C9_witness :
    (create_stream_clippers_run hullBand ⟨some polyHalf, [7], []⟩).clipper = some polyHalf ∧
    (create_stream_clippers_run hullBand
        (create_stream_clippers_run hullBand ⟨some polyHalf, [7], []⟩)).clipper =
      (create_stream_clippers_run hullBand ⟨some polyHalf, [7], []⟩).clipper := by
  exact ⟨((C9_clipper_idempotent hullBand ⟨some polyHalf, [7], []⟩).1 rfl).1,
    (C9_clipper_idempotent hullBand ⟨some polyHalf, [7], []⟩).2.1⟩
